import Mathlib

/-
Verification of the swr-idb-cache cache provider.

The repository has two variants of the same design:
  * `src/unnamed/part_000`  — the unified variant: SWR `State` entries, an
    `isFetchInfo` transient check, an `onError` callback for failed durable
    writes, `keys`/`clear` methods, stale pruning during hydration, and a
    destructive object-store recreation on version upgrade.  Embedded below in
    namespace `Unified`.
  * `src/src/cache-provider.ts` — the simple variant: plain values, a key-shape
    heuristic `isResponseResult` (keys starting with the internal marker are
    never persisted), no `onError`, no `clear`.  Embedded below in namespace
    `Simple`.

The in-memory `Map` is modelled as an association list over `String` keys.
JavaScript `Map` keys are unique, so the list representations reached through
the API always have pairwise distinct keys; the operations below agree with
JavaScript `Map` semantics on such lists.

Asynchronous durable-store writes are fire-and-forget; each mutation carries an
explicit outcome (`none` = the underlying write settles successfully, `some e`
= it rejects with error `e`), so theorems quantifying over outcomes capture
"independently of whether the durable write succeeds or fails".  A `journal`
field records every durable operation that the code issues, whether or not it
later succeeds.
-/

namespace SwrIdbCache

/-! ## Association-list model of the JavaScript Map -/

def mget {α : Type} : List (String × α) → String → Option α
  | [], _ => none
  | (k0, v) :: rest, k => if k0 = k then some v else mget rest k

def mcontains {α : Type} : List (String × α) → String → Bool
  | [], _ => false
  | (k0, _) :: rest, k => if k0 = k then true else mcontains rest k

/-- `Map.prototype.set`: update the entry with the given key in place, or
append a new entry at the end (insertion order). -/
def mset {α : Type} : List (String × α) → String → α → List (String × α)
  | [], k, v => [(k, v)]
  | (k0, v0) :: rest, k, v =>
    if k0 = k then (k0, v) :: rest else (k0, v0) :: mset rest k v

/-- `Map.prototype.delete`: remove the entry with the given key.  Keys are
unique in a JavaScript Map, so removing every occurrence coincides with
removing the single one. -/
def mdelete {α : Type} : List (String × α) → String → List (String × α)
  | [], _ => []
  | (k0, v0) :: rest, k =>
    if k0 = k then mdelete rest k else (k0, v0) :: mdelete rest k

theorem mget_mset_self {α : Type} (m : List (String × α)) (k : String) (v : α) :
    mget (mset m k v) k = some v := by
  induction m with
  | nil => simp [mset, mget]
  | cons p rest ih =>
    obtain ⟨k0, v0⟩ := p
    by_cases h : k0 = k
    · simp [mset, mget, h]
    · simp [mset, mget, h, ih]

theorem mget_mset_ne {α : Type} (m : List (String × α)) {k0 k : String} (v : α)
    (h : k0 ≠ k) : mget (mset m k0 v) k = mget m k := by
  induction m with
  | nil => simp [mset, mget, h]
  | cons p rest ih =>
    obtain ⟨k1, v1⟩ := p
    by_cases h1 : k1 = k0
    · subst h1; simp [mset, mget, h]
    · simp [mset, h1, mget, ih]

theorem mget_mset {α : Type} (m : List (String × α)) (k0 k : String) (v : α) :
    mget (mset m k0 v) k = if k0 = k then some v else mget m k := by
  by_cases h : k0 = k
  · subst h; simp [mget_mset_self]
  · simp [h, mget_mset_ne m v h]

theorem mget_mdelete {α : Type} (m : List (String × α)) (k0 k : String) :
    mget (mdelete m k0) k = if k0 = k then none else mget m k := by
  induction m with
  | nil => simp [mdelete, mget]
  | cons p rest ih =>
    obtain ⟨k1, v1⟩ := p
    by_cases h1 : k1 = k0
    · subst h1
      by_cases h : k1 = k
      · subst h; simp [mdelete, mget, ih]
      · simp [mdelete, mget, h, ih]
    · by_cases h : k1 = k
      · subst h
        simp [mdelete, h1, mget]
        intro hc
        exact absurd hc.symm h1
      · simp [mdelete, h1, mget, h, ih]

theorem mdelete_of_not_contains {α : Type} (m : List (String × α)) (k : String)
    (h : mcontains m k = false) : mdelete m k = m := by
  induction m with
  | nil => rfl
  | cons p rest ih =>
    obtain ⟨k0, v0⟩ := p
    by_cases h0 : k0 = k
    · simp [mcontains, h0] at h
    · simp [mcontains, h0] at h
      simp [mdelete, h0, ih h]

theorem mem_of_mem_mset {α : Type} (m : List (String × α)) (k : String) (v : α)
    (p : String × α) (h : p ∈ mset m k v) : p = (k, v) ∨ p ∈ m := by
  induction m with
  | nil => simp [mset] at h; simp [h]
  | cons q rest ih =>
    obtain ⟨k0, v0⟩ := q
    by_cases h0 : k0 = k
    · subst h0
      simp [mset] at h
      rcases h with h | h
      · exact Or.inl (by simp [h])
      · exact Or.inr (by simp [h])
    · simp [mset, h0] at h
      rcases h with h | h
      · exact Or.inr (by simp [h])
      · rcases ih h with h1 | h1
        · exact Or.inl h1
        · exact Or.inr (by simp [h1])

theorem mem_of_mem_mdelete {α : Type} (m : List (String × α)) (k : String)
    (p : String × α) (h : p ∈ mdelete m k) : p ∈ m := by
  induction m with
  | nil => simp [mdelete] at h
  | cons q rest ih =>
    obtain ⟨k0, v0⟩ := q
    by_cases h0 : k0 = k
    · simp [mdelete, h0] at h
      exact List.mem_cons_of_mem _ (ih h)
    · simp [mdelete, h0] at h
      rcases h with h | h
      · simp [h]
      · exact List.mem_cons_of_mem _ (ih h)

theorem mcontains_append {α : Type} (m1 m2 : List (String × α)) (k : String) :
    mcontains (m1 ++ m2) k = (mcontains m1 k || mcontains m2 k) := by
  induction m1 with
  | nil => simp [mcontains]
  | cons p rest ih =>
    obtain ⟨k0, v0⟩ := p
    by_cases h : k0 = k <;> simp [mcontains, h, ih]

/-! ## Cached entries (SWR `State`) -/

/-- A JavaScript value sitting in the `error` field of an SWR state: either a
native `Error` instance or some other (plain, serializable) value. -/
inductive JSErrorVal where
  | nativeError (msg : String)
  | nonError (payload : String)
  deriving DecidableEq, Repr

/-- SWR `State<Data, Error>` as used by `src/unnamed/part_000`: optional data,
optional error, optional in-flight flags. -/
structure TState where
  data : Option String := none
  error : Option JSErrorVal := none
  isValidating : Option Bool := none
  isLoading : Option Bool := none
  deriving DecidableEq, Repr

/-- `state.error instanceof Error`. -/
def instanceofError : Option JSErrorVal → Bool
  | some (.nativeError _) => true
  | _ => false

/-- `isFetchInfo` from `src/unnamed/part_000`:
`state.error instanceof Error || state.isValidating === true || state.isLoading === true`. -/
def isFetchInfo (state : TState) : Bool :=
  instanceofError state.error
    || state.isValidating == some true
    || state.isLoading == some true

/-! ## Unified variant (`src/unnamed/part_000`) -/

namespace Unified

/-- A durable-store operation issued by the provider (recorded whether or not
the underlying asynchronous write later succeeds). -/
inductive DbOp (StoredVal : Type) where
  | put (k : String) (sv : StoredVal)
  | del (k : String)
  | clearAll
  deriving DecidableEq, Repr

/-- State of the composed provider: the in-memory Mirror (`map`), the durable
object store contents, the list of errors handed to `onError`, and the journal
of issued durable operations. -/
structure Sys (StoredVal DbErr : Type) where
  mirror : List (String × SwrIdbCache.TState)
  durable : List (String × StoredVal)
  errors : List DbErr
  journal : List (DbOp StoredVal)
  deriving DecidableEq, Repr

/-- `set(key, value)` from `src/unnamed/part_000`:
`map.set(key, value)`; return early when `isFetchInfo(value)`; compute
`storageHandler.replace(key, value)` and return early when it is `undefined`;
otherwise `db.put(storeName, storeValue, key).catch(onError)`.
`outcome = none` means the put settles successfully, `outcome = some e` means
it rejects with `e` (which `.catch` routes to `onError`). -/
def doSet {StoredVal DbErr : Type}
    (replace : String → SwrIdbCache.TState → Option StoredVal)
    (s : Sys StoredVal DbErr) (k : String) (v : SwrIdbCache.TState)
    (outcome : Option DbErr) : Sys StoredVal DbErr :=
  let mirror := SwrIdbCache.mset s.mirror k v
  if SwrIdbCache.isFetchInfo v then
    { s with mirror := mirror }
  else
    match replace k v with
    | none => { s with mirror := mirror }
    | some sv =>
      match outcome with
      | none =>
        { mirror := mirror, durable := SwrIdbCache.mset s.durable k sv,
          errors := s.errors, journal := s.journal ++ [DbOp.put k sv] }
      | some e =>
        { mirror := mirror, durable := s.durable,
          errors := s.errors ++ [e], journal := s.journal ++ [DbOp.put k sv] }

/-- `delete(key)` from `src/unnamed/part_000`:
`if (map.delete(key)) db.delete(storeName, key).catch(onError)`.  `map.delete`
always runs; the durable delete is issued only when the key existed. -/
def doDelete {StoredVal DbErr : Type}
    (s : Sys StoredVal DbErr) (k : String) (outcome : Option DbErr) :
    Sys StoredVal DbErr :=
  let existed := SwrIdbCache.mcontains s.mirror k
  let mirror := SwrIdbCache.mdelete s.mirror k
  if existed then
    match outcome with
    | none =>
      { mirror := mirror, durable := SwrIdbCache.mdelete s.durable k,
        errors := s.errors, journal := s.journal ++ [DbOp.del k] }
    | some e =>
      { mirror := mirror, durable := s.durable,
        errors := s.errors ++ [e], journal := s.journal ++ [DbOp.del k] }
  else
    { s with mirror := mirror }

/-- `clear()` from `src/unnamed/part_000`: `map.clear(); db.clear(storeName)`.
Note the source attaches no `.catch(onError)` to `db.clear`, so a rejected
clear is an unhandled rejection: `errors` is left unchanged either way. -/
def doClear {StoredVal DbErr : Type}
    (s : Sys StoredVal DbErr) (outcome : Option DbErr) : Sys StoredVal DbErr :=
  match outcome with
  | none =>
    { mirror := [], durable := [],
      errors := s.errors, journal := s.journal ++ [DbOp.clearAll] }
  | some _ =>
    { mirror := [], durable := s.durable,
      errors := s.errors, journal := s.journal ++ [DbOp.clearAll] }

/-- `get(key)`: `map.get(key)`, a pure in-memory read. -/
def doGet {StoredVal DbErr : Type} (s : Sys StoredVal DbErr) (k : String) :
    Option SwrIdbCache.TState :=
  SwrIdbCache.mget s.mirror k

/-- `keys()`: `map.keys()`. -/
def doKeys {StoredVal DbErr : Type} (s : Sys StoredVal DbErr) : List String :=
  s.mirror.map Prod.fst

/-- One provider call together with the eventual outcome of the durable write
it may trigger (`none` = success, `some e` = rejection with `e`). -/
inductive Op (DbErr : Type) where
  | set (k : String) (v : SwrIdbCache.TState) (outcome : Option DbErr)
  | del (k : String) (outcome : Option DbErr)
  | clear (outcome : Option DbErr)

def step {StoredVal DbErr : Type}
    (replace : String → SwrIdbCache.TState → Option StoredVal)
    (s : Sys StoredVal DbErr) : Op DbErr → Sys StoredVal DbErr
  | .set k v o => doSet replace s k v o
  | .del k o => doDelete s k o
  | .clear o => doClear s o

def run {StoredVal DbErr : Type}
    (replace : String → SwrIdbCache.TState → Option StoredVal)
    (s : Sys StoredVal DbErr) : List (Op DbErr) → Sys StoredVal DbErr
  | [] => s
  | op :: ops => run replace (step replace s op) ops

/-- The hydration cursor loop of `src/unnamed/part_000`: for each record call
`storageHandler.revive(key, value)`; on the `undefined` sentinel run
`cursor.delete()` (the record is not kept in the store) and skip the key;
otherwise `map.set(key, value)`.  `m` is the Mirror built so far and `kept`
the records surviving in the durable store. -/
def hydrateLoop {StoredVal : Type}
    (revive : String → StoredVal → Option SwrIdbCache.TState)
    (m : List (String × SwrIdbCache.TState)) (kept : List (String × StoredVal)) :
    List (String × StoredVal) →
      List (String × SwrIdbCache.TState) × List (String × StoredVal)
  | [] => (m, kept)
  | (k, r) :: rest =>
    match revive k r with
    | none => hydrateLoop revive m kept rest
    | some v => hydrateLoop revive (SwrIdbCache.mset m k v) (kept ++ [(k, r)]) rest

/-- Hydration: drain the whole store starting from an empty Mirror; returns the
hydrated Mirror and the records remaining in the durable store. -/
def hydrate {StoredVal : Type}
    (revive : String → StoredVal → Option SwrIdbCache.TState)
    (records : List (String × StoredVal)) :
    List (String × SwrIdbCache.TState) × List (String × StoredVal) :=
  hydrateLoop revive [] [] records

/-- `openDB(dbName, version, { upgrade })` from `src/unnamed/part_000`: idb
runs the upgrade callback exactly when the requested version exceeds the
stored one; the callback deletes the previous object store (when one exists)
and recreates it, so the store comes out empty; otherwise the existing store
contents are kept. -/
def openDBStore {StoredVal : Type} (version oldVersion : Nat)
    (store : List (String × StoredVal)) : List (String × StoredVal) :=
  if oldVersion < version then [] else store

/-- The record of methods of the object returned by the factory, each acting on
an explicit `Sys` state.  The factory `(globalCache) => ({ keys, get, set,
delete, clear })` closes over `map` and `db` only; `globalCache` is a formal
parameter it never reads. -/
structure CacheOps (StoredVal DbErr : Type) where
  get : Sys StoredVal DbErr → String → Option SwrIdbCache.TState
  keys : Sys StoredVal DbErr → List String
  set : Sys StoredVal DbErr → String → SwrIdbCache.TState → Option DbErr →
    Sys StoredVal DbErr
  del : Sys StoredVal DbErr → String → Option DbErr → Sys StoredVal DbErr
  clear : Sys StoredVal DbErr → Option DbErr → Sys StoredVal DbErr

/-- The factory returned by `createCacheProvider`, applied to the consumer's
`globalCache` argument. -/
def createCacheProvider {StoredVal DbErr : Type}
    (replace : String → SwrIdbCache.TState → Option StoredVal)
    (globalCache : List (String × SwrIdbCache.TState)) : CacheOps StoredVal DbErr :=
  { get := doGet, keys := doKeys, set := doSet replace,
    del := doDelete, clear := doClear }

end Unified

/-! ## Simple variant (`src/src/cache-provider.ts`) -/

namespace Simple

/-- A durable-store operation issued by the simple variant. -/
inductive DbOp (StoredVal : Type) where
  | put (k : String) (sv : StoredVal)
  | del (k : String)
  deriving DecidableEq, Repr

/-- State of the simple variant: Mirror, durable store, journal of issued
durable operations.  This variant configures no error callback. -/
structure Sys (TValue StoredVal : Type) where
  mirror : List (String × TValue)
  durable : List (String × StoredVal)
  journal : List (DbOp StoredVal)
  deriving DecidableEq, Repr

/-- `isResponseResult` from `src/src/cache-provider.ts`:
`!key.startsWith('$')`, i.e. the key's first character is not the internal
bookkeeping marker. -/
def isResponseResult (k : String) : Bool :=
  match k.data with
  | [] => true
  | c :: _ => !(c == Char.ofNat 36)

/-- `set(key, value)` from `src/src/cache-provider.ts`:
`map.set(key, value); if (isResponseResult(key)) db.put(storeName,
storageHandler.replace(value), key)`.  `ok` is the eventual outcome of the
unawaited put. -/
def doSet {TValue StoredVal : Type} (replace : TValue → StoredVal)
    (s : Sys TValue StoredVal) (k : String) (v : TValue) (ok : Bool) :
    Sys TValue StoredVal :=
  let mirror := SwrIdbCache.mset s.mirror k v
  if isResponseResult k then
    { mirror := mirror,
      durable := if ok then SwrIdbCache.mset s.durable k (replace v) else s.durable,
      journal := s.journal ++ [DbOp.put k (replace v)] }
  else
    { s with mirror := mirror }

/-- `delete(key)` from `src/src/cache-provider.ts`:
`if (map.delete(key) && isResponseResult(key)) db.delete(storeName, key)`.
`map.delete` always runs; the durable delete is issued only when the key
existed and is not internal. -/
def doDelete {TValue StoredVal : Type} (s : Sys TValue StoredVal) (k : String)
    (ok : Bool) : Sys TValue StoredVal :=
  let existed := SwrIdbCache.mcontains s.mirror k
  let mirror := SwrIdbCache.mdelete s.mirror k
  if existed && isResponseResult k then
    { mirror := mirror,
      durable := if ok then SwrIdbCache.mdelete s.durable k else s.durable,
      journal := s.journal ++ [DbOp.del k] }
  else
    { s with mirror := mirror }

/-- `get(key)`: `map.get(key)`. -/
def doGet {TValue StoredVal : Type} (s : Sys TValue StoredVal) (k : String) :
    Option TValue :=
  SwrIdbCache.mget s.mirror k

end Simple

/-! ## Spec-side value semantics and the throwing-handler variant -/

/-- Modelled from the spec: the value implied, for key `k`, by the last
Mirror-affecting call of a sequence — the value of the last `set` on `k`, the
missing sentinel after a `delete` on `k` or a `clear`, and the starting value
when no call affects `k`.  Outcomes of durable writes are ignored. -/
def impliedValue {DbErr : Type} (k : String) :
    Option TState → List (Unified.Op DbErr) → Option TState
  | v, [] => v
  | v, .set k0 v0 _ :: ops => impliedValue k (if k0 = k then some v0 else v) ops
  | v, .del k0 _ :: ops => impliedValue k (if k0 = k then none else v) ops
  | _, .clear _ :: ops => impliedValue k none ops

namespace Unified

/-- `set(key, value)` when `storageHandler.replace` may throw synchronously
(`Except.error e`).  `map.set(key, value)` runs before `replace` is called, so
when the exception propagates to the caller of `set` the Mirror already holds
the new entry and no put has been issued.  Returns the state after the call
together with the exception, if any, that escapes to the caller. -/
def doSetE {StoredVal DbErr Err : Type}
    (replaceE : String → TState → Except Err (Option StoredVal))
    (s : Sys StoredVal DbErr) (k : String) (v : TState)
    (outcome : Option DbErr) : Sys StoredVal DbErr × Option Err :=
  let mirror := mset s.mirror k v
  if isFetchInfo v then
    ({ s with mirror := mirror }, none)
  else
    match replaceE k v with
    | .error ex => ({ s with mirror := mirror }, some ex)
    | .ok none => ({ s with mirror := mirror }, none)
    | .ok (some sv) =>
      match outcome with
      | none =>
        ({ mirror := mirror, durable := mset s.durable k sv,
           errors := s.errors, journal := s.journal ++ [DbOp.put k sv] }, none)
      | some e =>
        ({ mirror := mirror, durable := s.durable,
           errors := s.errors ++ [e], journal := s.journal ++ [DbOp.put k sv] },
         none)

theorem doSet_mirror {StoredVal DbErr : Type}
    (replace : String → TState → Option StoredVal)
    (s : Sys StoredVal DbErr) (k : String) (v : TState) (o : Option DbErr) :
    (doSet replace s k v o).mirror = mset s.mirror k v := by
  unfold doSet
  cases h : isFetchInfo v
  · cases hr : replace k v
    · simp [h, hr]
    · cases o <;> simp [h, hr]
  · simp [h]

theorem doDelete_mirror {StoredVal DbErr : Type}
    (s : Sys StoredVal DbErr) (k : String) (o : Option DbErr) :
    (doDelete s k o).mirror = mdelete s.mirror k := by
  unfold doDelete
  cases h : mcontains s.mirror k
  · simp [h]
  · cases o <;> simp [h]

theorem doClear_mirror {StoredVal DbErr : Type}
    (s : Sys StoredVal DbErr) (o : Option DbErr) :
    (doClear s o).mirror = [] := by
  cases o <;> rfl

theorem run_get {StoredVal DbErr : Type}
    (replace : String → TState → Option StoredVal) (k : String) :
    ∀ (ops : List (Op DbErr)) (s : Sys StoredVal DbErr),
      doGet (run replace s ops) k = impliedValue k (doGet s k) ops := by
  intro ops
  induction ops with
  | nil => intro s; rfl
  | cons op rest ih =>
    intro s
    cases op with
    | set k0 v0 o =>
      show doGet (run replace (doSet replace s k0 v0 o) rest) k = _
      rw [ih]
      show _ = impliedValue k (if k0 = k then some v0 else doGet s k) rest
      congr 1
      show mget (doSet replace s k0 v0 o).mirror k = _
      rw [doSet_mirror, mget_mset]
      rfl
    | del k0 o =>
      show doGet (run replace (doDelete s k0 o) rest) k = _
      rw [ih]
      show _ = impliedValue k (if k0 = k then none else doGet s k) rest
      congr 1
      show mget (doDelete s k0 o).mirror k = _
      rw [doDelete_mirror, mget_mdelete]
      rfl
    | clear o =>
      show doGet (run replace (doClear s o) rest) k = _
      rw [ih]
      show _ = impliedValue k none rest
      congr 1
      show mget (doClear s o).mirror k = _
      rw [doClear_mirror]
      rfl

theorem hydrateLoop_untouched {StoredVal : Type}
    (revive : String → StoredVal → Option TState) (k : String) :
    ∀ (records : List (String × StoredVal)) (m : List (String × TState))
      (kept : List (String × StoredVal)),
      k ∉ records.map Prod.fst →
      mget (hydrateLoop revive m kept records).1 k = mget m k
      ∧ mcontains (hydrateLoop revive m kept records).2 k = mcontains kept k := by
  intro records
  induction records with
  | nil => intro m kept _; exact ⟨rfl, rfl⟩
  | cons p rest ih =>
    intro m kept hk
    obtain ⟨k0, r0⟩ := p
    simp only [List.map_cons, List.mem_cons] at hk
    push_neg at hk
    obtain ⟨hk0, hrest⟩ := hk
    show (mget (hydrateLoop revive m kept ((k0, r0) :: rest)).1 k = mget m k) ∧ _
    cases hr : revive k0 r0 with
    | none =>
      simpa [hydrateLoop, hr] using ih m kept hrest
    | some v =>
      have := ih (mset m k0 v) (kept ++ [(k0, r0)]) hrest
      rw [mget_mset_ne m v (fun h => hk0 h.symm)] at this
      rw [mcontains_append] at this
      have hck : mcontains [(k0, r0)] k = false := by
        simp [mcontains]
        intro h
        exact absurd h hk0.symm
      rw [hck] at this
      simpa [hydrateLoop, hr] using this

theorem hydrateLoop_kept_mono {StoredVal : Type}
    (revive : String → StoredVal → Option TState) (p : String × StoredVal) :
    ∀ (records : List (String × StoredVal)) (m : List (String × TState))
      (kept : List (String × StoredVal)),
      p ∈ kept → p ∈ (hydrateLoop revive m kept records).2 := by
  intro records
  induction records with
  | nil => intro m kept h; exact h
  | cons q rest ih =>
    intro m kept h
    obtain ⟨k0, r0⟩ := q
    cases hr : revive k0 r0 with
    | none => simpa [hydrateLoop, hr] using ih m kept h
    | some v =>
      have : p ∈ kept ++ [(k0, r0)] := List.mem_append_left _ h
      simpa [hydrateLoop, hr] using ih (mset m k0 v) (kept ++ [(k0, r0)]) this

theorem hydrateLoop_record {StoredVal : Type}
    (revive : String → StoredVal → Option TState) (k : String) (r : StoredVal) :
    ∀ (records : List (String × StoredVal)) (m : List (String × TState))
      (kept : List (String × StoredVal)),
      (k, r) ∈ records → (records.map Prod.fst).Nodup →
      mget m k = none → mcontains kept k = false →
      (revive k r = none →
        mget (hydrateLoop revive m kept records).1 k = none
        ∧ mcontains (hydrateLoop revive m kept records).2 k = false)
      ∧ (∀ v, revive k r = some v →
        mget (hydrateLoop revive m kept records).1 k = some v
        ∧ (k, r) ∈ (hydrateLoop revive m kept records).2) := by
  intro records
  induction records with
  | nil => intro m kept h; simp at h
  | cons q rest ih =>
    intro m kept hmem hnd hm hkept
    obtain ⟨k0, r0⟩ := q
    simp only [List.map_cons, List.nodup_cons] at hnd
    obtain ⟨hk0rest, hndrest⟩ := hnd
    rcases List.mem_cons.mp hmem with hq | hq
    · -- the record under scrutiny is the head
      have hk : k0 = k := (congrArg Prod.fst hq).symm
      have hr2 : r0 = r := (congrArg Prod.snd hq).symm
      subst hk
      subst hr2
      constructor
      · intro hnone
        have h1 := hydrateLoop_untouched revive k0 rest m kept hk0rest
        exact ⟨by simpa [hydrateLoop, hnone] using h1.1.trans hm,
               by simpa [hydrateLoop, hnone] using h1.2.trans hkept⟩
      · intro v hv
        have huntouched :=
          hydrateLoop_untouched revive k0 rest (mset m k0 v) (kept ++ [(k0, r0)]) hk0rest
        have hmem2 : (k0, r0) ∈ kept ++ [(k0, r0)] :=
          List.mem_append_right _ (by simp)
        have hkm := hydrateLoop_kept_mono revive (k0, r0) rest (mset m k0 v)
          (kept ++ [(k0, r0)]) hmem2
        constructor
        · have h1 : mget (hydrateLoop revive (mset m k0 v) (kept ++ [(k0, r0)]) rest).1 k0
              = some v := by
            rw [huntouched.1, mget_mset_self]
          simpa [hydrateLoop, hv] using h1
        · simpa [hydrateLoop, hv] using hkm
    · -- the record under scrutiny is further down; the head has a different key
      have hk0 : k0 ≠ k := by
        intro h
        subst h
        exact hk0rest (by simpa using List.mem_map_of_mem Prod.fst hq)
      cases hr0 : revive k0 r0 with
      | none =>
        simpa [hydrateLoop, hr0] using ih m kept hq hndrest hm hkept
      | some v0 =>
        have hm2 : mget (mset m k0 v0) k = none := by
          rw [mget_mset_ne m v0 hk0]; exact hm
        have hkept2 : mcontains (kept ++ [(k0, r0)]) k = false := by
          rw [mcontains_append, hkept]
          simp [mcontains]
          intro h
          exact absurd h hk0
        simpa [hydrateLoop, hr0] using
          ih (mset m k0 v0) (kept ++ [(k0, r0)]) hq hndrest hm2 hkept2

theorem hydrateLoop_no_stale_kept {StoredVal : Type}
    (revive : String → StoredVal → Option TState) :
    ∀ (records : List (String × StoredVal)) (m : List (String × TState))
      (kept : List (String × StoredVal)),
      (∀ p ∈ records, (revive p.1 p.2).isSome = true) →
      (hydrateLoop revive m kept records).2 = kept ++ records := by
  intro records
  induction records with
  | nil => intro m kept _; simp [hydrateLoop]
  | cons q rest ih =>
    intro m kept h
    obtain ⟨k0, r0⟩ := q
    have h0 : (revive k0 r0).isSome = true := h (k0, r0) (by simp)
    cases hr : revive k0 r0 with
    | none => rw [hr] at h0; simp at h0
    | some v =>
      have := ih (mset m k0 v) (kept ++ [(k0, r0)])
        (fun p hp => h p (List.mem_cons_of_mem _ hp))
      simpa [hydrateLoop, hr] using this

theorem doSet_durable_mem {StoredVal DbErr : Type}
    (replace : String → TState → Option StoredVal)
    (s : Sys StoredVal DbErr) (k : String) (v : TState) (o : Option DbErr)
    (p : String × StoredVal) (hp : p ∈ (doSet replace s k v o).durable) :
    p ∈ s.durable ∨ (isFetchInfo v = false ∧ replace p.1 v = some p.2) := by
  cases h : isFetchInfo v with
  | true =>
    simp [doSet, h] at hp
    exact Or.inl hp
  | false =>
    cases hr : replace k v with
    | none =>
      simp [doSet, h, hr] at hp
      exact Or.inl hp
    | some sv =>
      cases o with
      | some e =>
        simp [doSet, h, hr] at hp
        exact Or.inl hp
      | none =>
        simp [doSet, h, hr] at hp
        rcases mem_of_mem_mset s.durable k sv p hp with h1 | h1
        · subst h1
          exact Or.inr ⟨rfl, by simpa using hr⟩
        · exact Or.inl h1

theorem doDelete_durable_mem {StoredVal DbErr : Type}
    (s : Sys StoredVal DbErr) (k : String) (o : Option DbErr)
    (p : String × StoredVal) (hp : p ∈ (doDelete s k o).durable) :
    p ∈ s.durable := by
  cases h : mcontains s.mirror k with
  | false =>
    simpa [doDelete, h] using hp
  | true =>
    cases o with
    | none =>
      simp [doDelete, h] at hp
      exact mem_of_mem_mdelete s.durable k p hp
    | some e =>
      simpa [doDelete, h] using hp

theorem doClear_durable_mem {StoredVal DbErr : Type}
    (s : Sys StoredVal DbErr) (o : Option DbErr)
    (p : String × StoredVal) (hp : p ∈ (doClear s o).durable) :
    p ∈ s.durable := by
  cases o with
  | none => simp [doClear] at hp
  | some e => simpa [doClear] using hp

/-- Induction invariant behind the amended C6: every record of the durable
store is the `replace`-image of some non-transient entry, and every provider
operation preserves this. -/
theorem run_durable_eligible {StoredVal DbErr : Type}
    (replace : String → TState → Option StoredVal) :
    ∀ (ops : List (Op DbErr)) (s : Sys StoredVal DbErr),
      (∀ p ∈ s.durable, ∃ v, isFetchInfo v = false ∧ replace p.1 v = some p.2) →
      ∀ p ∈ (run replace s ops).durable,
        ∃ v, isFetchInfo v = false ∧ replace p.1 v = some p.2 := by
  intro ops
  induction ops with
  | nil => intro s h; exact h
  | cons op rest ih =>
    intro s h
    apply ih
    cases op with
    | set k v o =>
      intro p hp
      rcases doSet_durable_mem replace s k v o p hp with h1 | h1
      · exact h p h1
      · exact ⟨v, h1⟩
    | del k o =>
      intro p hp
      exact h p (doDelete_durable_mem s k o p hp)
    | clear o =>
      intro p hp
      exact h p (doClear_durable_mem s o p hp)

end Unified

/-! ## Sample values used by witnesses and counterexamples -/

def samplePlain : TState := { data := some "a" }

def sampleTransient : TState := { isValidating := some true }

def idReplace : String → TState → Option TState := fun _ v => some v

def idRevive : String → TState → Option TState := fun _ v => some v

def emptySys : Unified.Sys TState Nat :=
  { mirror := [], durable := [], errors := [], journal := [] }

def emptySimpleSys : Simple.Sys TState TState :=
  { mirror := [], durable := [], journal := [] }

/-- A revive marking exactly the record under key "a" as stale. -/
def sampleRevive : String → TState → Option TState :=
  fun k v => if k = "a" then none else some v

def sampleRecords : List (String × TState) :=
  [("a", samplePlain), ("b", sampleTransient)]

/-! ## Claims -/

/-- C1: For every sequence of set/delete/clear calls, each carrying an
arbitrary outcome for the asynchronous durable write it may trigger, a
subsequent get(key) returns exactly the value implied by the last
Mirror-affecting call for that key (the value of the last set, the missing
sentinel after a delete/clear, the pre-existing value when no call affected
the key); and set(key, value) updates the in-memory map before any persistence
decision is made: the Mirror after a set is the map update of the old Mirror in
every eligibility and outcome branch. -/
theorem c1_get_reflects_last_mirror_write {StoredVal DbErr : Type}
    (replace : String → TState → Option StoredVal)
    (s : Unified.Sys StoredVal DbErr) (ops : List (Unified.Op DbErr))
    (k : String) :
    Unified.doGet (Unified.run replace s ops) k
      = impliedValue k (Unified.doGet s k) ops
    ∧ ∀ (v : TState) (outcome : Option DbErr),
        (Unified.doSet replace s k v outcome).mirror = mset s.mirror k v :=
  ⟨Unified.run_get replace k ops s,
   fun v outcome => Unified.doSet_mirror replace s k v outcome⟩

/-- C2: a set whose entry carries a transient in-flight flag
(isValidating === true or isLoading === true) or whose error field is a native
Error issues no durable-store operation at all — journal, durable store and
error list are unchanged — even though the Mirror stores the entry and
get(key) returns it. -/
theorem c2_transient_entries_never_put {StoredVal DbErr : Type}
    (replace : String → TState → Option StoredVal)
    (s : Unified.Sys StoredVal DbErr) (k : String) (v : TState)
    (outcome : Option DbErr)
    (h : instanceofError v.error = true ∨ v.isValidating = some true
      ∨ v.isLoading = some true) :
    (Unified.doSet replace s k v outcome).journal = s.journal
    ∧ (Unified.doSet replace s k v outcome).durable = s.durable
    ∧ (Unified.doSet replace s k v outcome).errors = s.errors
    ∧ Unified.doGet (Unified.doSet replace s k v outcome) k = some v := by
  have hf : isFetchInfo v = true := by
    unfold isFetchInfo
    rcases h with h | h | h <;> simp [h]
  refine ⟨?_, ?_, ?_, ?_⟩ <;>
    simp [Unified.doSet, Unified.doGet, hf, mget_mset_self]

theorem c2_witness :
    (instanceofError sampleTransient.error = true
      ∨ sampleTransient.isValidating = some true
      ∨ sampleTransient.isLoading = some true)
    ∧ ((Unified.doSet idReplace emptySys "k" sampleTransient none).journal = []
      ∧ (Unified.doSet idReplace emptySys "k" sampleTransient none).durable = []
      ∧ (Unified.doSet idReplace emptySys "k" sampleTransient none).errors = []
      ∧ Unified.doGet (Unified.doSet idReplace emptySys "k" sampleTransient none)
          "k" = some sampleTransient) :=
  ⟨Or.inr (Or.inl rfl),
   c2_transient_entries_never_put idReplace emptySys "k" sampleTransient none
     (Or.inr (Or.inl rfl))⟩

/-- C3: after hydration over records with pairwise distinct keys, a record for
which revive returns the stale sentinel is absent from the hydrated Mirror and
deleted from the durable store; every other record is inserted into the Mirror
under its key (as its revived entry) and kept in the durable store. -/
theorem c3_stale_records_pruned {StoredVal : Type}
    (revive : String → StoredVal → Option TState)
    (records : List (String × StoredVal)) (k : String) (r : StoredVal)
    (hmem : (k, r) ∈ records) (hnd : (records.map Prod.fst).Nodup) :
    (revive k r = none →
      mget (Unified.hydrate revive records).1 k = none
      ∧ mcontains (Unified.hydrate revive records).2 k = false)
    ∧ (∀ v, revive k r = some v →
      mget (Unified.hydrate revive records).1 k = some v
      ∧ (k, r) ∈ (Unified.hydrate revive records).2) :=
  Unified.hydrateLoop_record revive k r records [] [] hmem hnd rfl rfl

theorem c3_witness :
    (("a", samplePlain) ∈ sampleRecords
      ∧ ("b", sampleTransient) ∈ sampleRecords
      ∧ (sampleRecords.map Prod.fst).Nodup
      ∧ sampleRevive "a" samplePlain = none
      ∧ sampleRevive "b" sampleTransient = some sampleTransient)
    ∧ (mget (Unified.hydrate sampleRevive sampleRecords).1 "a" = none
      ∧ mcontains (Unified.hydrate sampleRevive sampleRecords).2 "a" = false)
    ∧ (mget (Unified.hydrate sampleRevive sampleRecords).1 "b"
        = some sampleTransient
      ∧ ("b", sampleTransient) ∈ (Unified.hydrate sampleRevive sampleRecords).2) :=
  ⟨⟨by decide, by decide, by decide, by decide, by decide⟩,
   (c3_stale_records_pruned sampleRevive sampleRecords "a" samplePlain
     (by decide) (by decide)).1 (by decide),
   (c3_stale_records_pruned sampleRevive sampleRecords "b" sampleTransient
     (by decide) (by decide)).2 sampleTransient (by decide)⟩

/-- C4 counterexample: the failure of the asynchronous db.clear triggered by
clear() is NOT routed to onError — the source attaches no catch handler to
db.clear — so at this concrete input (a failing clear on a non-empty provider)
the error list stays empty although the durable clear failed. -/
theorem c4_counterexample :
    (Unified.doClear
      (⟨[("k", samplePlain)], [("k", samplePlain)], [], []⟩ :
        Unified.Sys TState Nat) (some 7)).errors = [] := rfl

/-- C4 amended: every failure of an asynchronous put (triggered by set) or
delete (triggered by delete) is routed to onError, and no durable-write
outcome is ever surfaced to the caller of the triggering mutation (the Mirror
result is independent of the outcome); but a failure of the clear triggered by
clear() is not routed to onError (its rejection is unhandled). -/
theorem c4_amended_error_routing {StoredVal DbErr : Type}
    (replace : String → TState → Option StoredVal)
    (s : Unified.Sys StoredVal DbErr) (k : String) (v : TState) (e : DbErr) :
    (Unified.doSet replace s k v (some e)).errors
      = s.errors
        ++ (if isFetchInfo v = false ∧ (replace k v).isSome = true
            then [e] else [])
    ∧ (Unified.doDelete s k (some e)).errors
      = s.errors ++ (if mcontains s.mirror k = true then [e] else [])
    ∧ (Unified.doClear s (some e)).errors = s.errors
    ∧ (∀ o, (Unified.doSet replace s k v o).mirror = mset s.mirror k v)
    ∧ (∀ o, (Unified.doDelete s k o).mirror = mdelete s.mirror k)
    ∧ (∀ o, (Unified.doClear s o).mirror = []) := by
  refine ⟨?_, ?_, rfl, Unified.doSet_mirror replace s k v,
    Unified.doDelete_mirror s k, Unified.doClear_mirror s⟩
  · cases hf : isFetchInfo v
    · cases hr : replace k v <;> simp [Unified.doSet, hf, hr]
    · simp [Unified.doSet, hf]
  · cases hc : mcontains s.mirror k <;> simp [Unified.doDelete, hc]

/-- C5: delete(key) issues an asynchronous durable delete iff the key was
present in the Mirror and, in the key-heuristic variant, the key is eligible
for persistence (isResponseResult); delete on an absent key leaves the whole
state unchanged (a no-op issuing no durable operation), in both variants. -/
theorem c5_delete_iff_present_eligible {TValue StoredVal StoredVal2 DbErr : Type}
    (s : Simple.Sys TValue StoredVal) (k : String) (ok : Bool)
    (s2 : Unified.Sys StoredVal2 DbErr) (o : Option DbErr) :
    (Simple.doDelete s k ok).journal
      = s.journal
        ++ (if mcontains s.mirror k && Simple.isResponseResult k
            then [Simple.DbOp.del k] else [])
    ∧ (mcontains s.mirror k = false → Simple.doDelete s k ok = s)
    ∧ (Unified.doDelete s2 k o).journal
      = s2.journal
        ++ (if mcontains s2.mirror k then [Unified.DbOp.del k] else [])
    ∧ (mcontains s2.mirror k = false → Unified.doDelete s2 k o = s2) := by
  refine ⟨?_, ?_, ?_, ?_⟩
  · cases hc : mcontains s.mirror k
    · simp [Simple.doDelete, hc]
    · cases he : Simple.isResponseResult k <;> simp [Simple.doDelete, hc, he]
  · intro hc
    simp [Simple.doDelete, hc, mdelete_of_not_contains s.mirror k hc]
  · cases hc : mcontains s2.mirror k
    · simp [Unified.doDelete, hc]
    · cases o <;> simp [Unified.doDelete, hc]
  · intro hc
    simp [Unified.doDelete, hc, mdelete_of_not_contains s2.mirror k hc]

theorem c5_witness :
    (mcontains emptySimpleSys.mirror "k" = false
      ∧ mcontains emptySys.mirror "k" = false)
    ∧ Simple.doDelete emptySimpleSys "k" true = emptySimpleSys
    ∧ Unified.doDelete emptySys "k" none = emptySys :=
  ⟨⟨rfl, rfl⟩,
   (c5_delete_iff_present_eligible emptySimpleSys "k" true emptySys none).2.1 rfl,
   (c5_delete_iff_present_eligible emptySimpleSys "k" true emptySys none).2.2.2 rfl⟩

/-- C6 counterexample: set("k", plain entry) with a successful put, then
set("k", transient entry): the durable store still holds a record under "k"
while the current Mirror entry for "k" is transient, so the claimed invariant
fails at this concrete operation sequence. -/
theorem c6_counterexample :
    mcontains (Unified.run idReplace emptySys
      [Unified.Op.set "k" samplePlain none,
       Unified.Op.set "k" sampleTransient none]).durable "k" = true
    ∧ Unified.doGet (Unified.run idReplace emptySys
      [Unified.Op.set "k" samplePlain none,
       Unified.Op.set "k" sampleTransient none]) "k" = some sampleTransient
    ∧ isFetchInfo sampleTransient = true := by decide

/-- C6 amended: starting from an empty durable store, after every operation
sequence with all issued durable writes settled, every record in the durable
store is the replace-image of some non-transient entry (transient entries
never generate puts), and in the key-heuristic variant a set under an
internal-bookkeeping key leaves the durable store and the journal unchanged;
however a record put for an earlier non-transient entry may remain under a key
whose current Mirror entry has since become transient. -/
theorem c6_amended_durable_soundness {StoredVal DbErr TValue StoredVal2 : Type}
    (replace : String → TState → Option StoredVal)
    (s0 : Unified.Sys StoredVal DbErr) (ops : List (Unified.Op DbErr))
    (hd : s0.durable = [])
    (replace2 : TValue → StoredVal2) (s3 : Simple.Sys TValue StoredVal2)
    (k : String) (v : TValue) (ok : Bool) :
    (∀ p ∈ (Unified.run replace s0 ops).durable,
      ∃ w, isFetchInfo w = false ∧ replace p.1 w = some p.2)
    ∧ (Simple.isResponseResult k = false →
        (Simple.doSet replace2 s3 k v ok).durable = s3.durable
        ∧ (Simple.doSet replace2 s3 k v ok).journal = s3.journal) := by
  constructor
  · apply Unified.run_durable_eligible replace ops s0
    rw [hd]
    intro p hp
    simp at hp
  · intro hk
    constructor <;> simp [Simple.doSet, hk]

theorem c6_amended_witness :
    (emptySys.durable = [] ∧ Simple.isResponseResult "$inf" = false)
    ∧ (∀ p ∈ (Unified.run idReplace emptySys
        [Unified.Op.set "k" samplePlain none]).durable,
        ∃ w, isFetchInfo w = false ∧ idReplace p.1 w = some p.2)
    ∧ ((Simple.doSet (fun (v : TState) => v) emptySimpleSys "$inf"
          sampleTransient true).durable = emptySimpleSys.durable
      ∧ (Simple.doSet (fun (v : TState) => v) emptySimpleSys "$inf"
          sampleTransient true).journal = emptySimpleSys.journal) :=
  ⟨⟨rfl, by decide⟩,
   (c6_amended_durable_soundness idReplace emptySys
     [Unified.Op.set "k" samplePlain none] rfl (fun (v : TState) => v)
     emptySimpleSys "$inf" sampleTransient true).1,
   (c6_amended_durable_soundness idReplace emptySys
     [Unified.Op.set "k" samplePlain none] rfl (fun (v : TState) => v)
     emptySimpleSys "$inf" sampleTransient true).2 (by decide)⟩

/-- C7: opening a durable store populated at version N with requested version
N + 1 runs the destructive upgrade (delete and recreate the object store), so
hydration yields an empty Mirror and the durable store is empty. -/
theorem c7_version_upgrade_wipes {StoredVal : Type}
    (revive : String → StoredVal → Option TState) (n : Nat)
    (store : List (String × StoredVal)) :
    Unified.hydrate revive (Unified.openDBStore (n + 1) n store) = ([], []) := by
  simp [Unified.openDBStore, Nat.lt_succ_self, Unified.hydrate, Unified.hydrateLoop]

/-- C8: hydration is idempotent over an unchanged durable store: when revive
(a function, hence returning the same result for the same record across runs)
marks no record stale, running hydration a second time from the store state
left by the first run yields the identical Mirror and store. -/
theorem c8_hydration_idempotent {StoredVal : Type}
    (revive : String → StoredVal → Option TState)
    (records : List (String × StoredVal))
    (h : ∀ p ∈ records, (revive p.1 p.2).isSome = true) :
    Unified.hydrate revive (Unified.hydrate revive records).2
      = Unified.hydrate revive records := by
  have h2 : (Unified.hydrate revive records).2 = records := by
    simpa [Unified.hydrate] using
      Unified.hydrateLoop_no_stale_kept revive records [] [] h
  rw [h2]

theorem c8_witness :
    (∀ p ∈ sampleRecords, (idRevive p.1 p.2).isSome = true)
    ∧ Unified.hydrate idRevive (Unified.hydrate idRevive sampleRecords).2
        = Unified.hydrate idRevive sampleRecords :=
  ⟨by decide, c8_hydration_idempotent idRevive sampleRecords (by decide)⟩

/-- C9: the factory returned by createCacheProvider ignores its globalCache
fallback argument entirely: for any two fallback caches the produced object is
the same record of get, keys, set, delete and clear operations, all of which
consult only the hydrated in-memory map and the durable handle. -/
theorem c9_global_cache_ignored {StoredVal DbErr : Type}
    (replace : String → TState → Option StoredVal)
    (g1 g2 : List (String × TState)) :
    (Unified.createCacheProvider replace g1 : Unified.CacheOps StoredVal DbErr)
      = Unified.createCacheProvider replace g2 := rfl

/-- C10: when the handler's replace throws synchronously during a set whose
entry passed the transient-state check, the exception propagates to the caller
of set, but the Mirror already holds the new entry — get(key) returns it — and
no put was issued: journal and durable store are unchanged. -/
theorem c10_replace_throw_keeps_mirror {StoredVal DbErr Err : Type}
    (replaceE : String → TState → Except Err (Option StoredVal))
    (s : Unified.Sys StoredVal DbErr) (k : String) (v : TState)
    (outcome : Option DbErr) (ex : Err)
    (hfi : isFetchInfo v = false) (hthrow : replaceE k v = Except.error ex) :
    (Unified.doSetE replaceE s k v outcome).2 = some ex
    ∧ Unified.doGet (Unified.doSetE replaceE s k v outcome).1 k = some v
    ∧ (Unified.doSetE replaceE s k v outcome).1.journal = s.journal
    ∧ (Unified.doSetE replaceE s k v outcome).1.durable = s.durable := by
  refine ⟨?_, ?_, ?_, ?_⟩ <;>
    simp [Unified.doSetE, Unified.doGet, hfi, hthrow, mget_mset_self]

theorem c10_witness :
    (isFetchInfo samplePlain = false
      ∧ (fun (_ : String) (_ : TState) =>
          (Except.error "boom" : Except String (Option TState))) "k" samplePlain
        = Except.error "boom")
    ∧ ((Unified.doSetE (fun _ _ => Except.error "boom") emptySys "k"
          samplePlain none).2 = some "boom"
      ∧ Unified.doGet (Unified.doSetE (fun _ _ => Except.error "boom") emptySys
          "k" samplePlain none).1 "k" = some samplePlain
      ∧ (Unified.doSetE (fun _ _ => Except.error "boom") emptySys "k"
          samplePlain none).1.journal = []
      ∧ (Unified.doSetE (fun _ _ => Except.error "boom") emptySys "k"
          samplePlain none).1.durable = []) :=
  ⟨⟨rfl, rfl⟩,
   c10_replace_throw_keeps_mirror (fun _ _ => Except.error "boom") emptySys "k"
     samplePlain none "boom" rfl rfl⟩

end SwrIdbCache
